import Mathlib

/-!
Verification of the `openrun` workflow engine core against its
natural-language specification.  The Python sources under
`src/openrun/` are shallowly embedded: Python values become the
inductive `Value`, pydantic models become structures, exceptions become
`Except`, and the asyncio driver loop becomes a fueled recursive
function (tasks complete synchronously, processed in launch order —
one admissible schedule of the event loop).
-/

namespace OpenRun

/-- Python runtime values as they occur in the state container:
`None`, `bool`, `int`, `float` (modelled as `Rat`), `str`, `list`,
`dict` (string keys, insertion ordered). -/
inductive Value where
  | vnull
  | vbool (b : Bool)
  | vint (n : Int)
  | vfloat (q : Rat)
  | vstr (s : String)
  | vlist (xs : List Value)
  | vdict (xs : List (String × Value))
  deriving Repr

/-- Python `bool(x)` truthiness. -/
def pyTruthy : Value → Bool
  | .vnull => false
  | .vbool b => b
  | .vint n => n ≠ 0
  | .vfloat q => q ≠ 0
  | .vstr s => s ≠ ""
  | .vlist xs => ¬ xs.isEmpty
  | .vdict xs => ¬ xs.isEmpty

/-- Characters treated as whitespace by Python's `str.strip()`. -/
def pySpace (c : Char) : Bool :=
  c = ' ' ∨ c = '\t' ∨ c = '\n' ∨ c = '\r' ∨ c = '\x0b' ∨ c = '\x0c'

/-- Python `str.strip()` (no arguments): drop leading and trailing
whitespace. -/
def pyStrip (s : String) : String :=
  String.mk (((s.toList.dropWhile pySpace).reverse.dropWhile pySpace).reverse)

/-- Python `str.lower()` (ASCII range; the sources only compare against
ASCII literals such as "true"/"1"/"yes"). -/
def pyLower (s : String) : String :=
  String.mk (s.toList.map Char.toLower)

/-- Python `int(s)` on a string: strip whitespace, optional sign, then
a non-empty run of ASCII digits (exotic forms such as underscores or
non-ASCII digits are not modelled).  `none` models `ValueError`. -/
def pyIntOfString (s : String) : Option Int :=
  match (pyStrip s).toList with
  | [] => none
  | c :: cs =>
    let digits := if c = '-' ∨ c = '+' then cs else c :: cs
    let sign : Int := if c = '-' then -1 else 1
    if digits ≠ [] ∧ digits.all Char.isDigit then
      some (sign * (digits.foldl (fun acc d => acc * 10 + (d.toNat - '0'.toNat)) 0 : Nat))
    else
      none

/-- Worker for `splitSep`, carrying the reversed current segment. -/
def splitSepGo (sep : Char) (acc : List Char) : List Char → List String
  | [] => [String.mk acc.reverse]
  | c :: cs =>
    if c = sep then String.mk acc.reverse :: splitSepGo sep [] cs
    else splitSepGo sep (c :: acc) cs

/-- Python `s.split(sep)` for a single-character separator: the empty
string yields `[""]`, adjacent separators yield empty segments. -/
def splitSep (sep : Char) (s : String) : List String :=
  splitSepGo sep [] s.toList

/-- Insert into a sorted list of strings (code-point order, as Python
compares strings). -/
def insertSorted (x : String) : List String → List String
  | [] => [x]
  | y :: ys => if x ≤ y then x :: y :: ys else y :: insertSorted x ys

/-- Python `sorted` over strings (insertion sort; stability and order
match `sorted`'s output). -/
def sortStrings : List String → List String
  | [] => []
  | x :: xs => insertSorted x (sortStrings xs)

/-- Natural-number value of a run of ASCII digits. -/
def digitsToNat (ds : List Char) : Nat :=
  ds.foldl (fun acc d => acc * 10 + (d.toNat - '0'.toNat)) 0

/-- Python `float(s)` on a string: strip, optional sign, decimal digits
with optional fractional part and optional exponent.  The result is the
exact rational the literal denotes (`inf`/`nan` are not modelled).
`none` models `ValueError`. -/
def pyFloatOfString (s : String) : Option Rat :=
  let core : List Char → Option Rat := fun cs =>
    -- split an optional exponent part introduced by e/E
    let (mant, expPart) :=
      match cs.splitOnP (fun c => c = 'e' ∨ c = 'E') with
      | [m] => (m, some ([] : List Char))
      | [m, e] => (m, some e)
      | _ => (cs, none)
    match expPart with
    | none => none
    | some e =>
      let (ip, fp) :=
        match mant.splitOnP (fun c => c = '.') with
        | [i] => (i, some ([] : List Char))
        | [i, f] => (i, some f)
        | _ => (mant, none)
      match fp with
      | none => none
      | some f =>
        if (ip ++ f) = [] ∨ ¬ (ip ++ f).all Char.isDigit then none
        else
          let expOk : Option Int :=
            match e with
            | [] => some 0
            | c :: rest =>
              let ds := if c = '-' ∨ c = '+' then rest else c :: rest
              if ds ≠ [] ∧ ds.all Char.isDigit then
                some ((if c = '-' then -1 else 1) * (digitsToNat ds : Int))
              else none
          -- the exponent part, when syntactically introduced, must be present
          match expOk with
          | none => none
          | some ex =>
            let base : Rat :=
              (digitsToNat ip : Rat) + (digitsToNat f : Rat) / ((10 : Rat) ^ f.length)
            some (base * (10 : Rat) ^ ex)
  match (pyStrip s).toList with
  | [] => none
  | c :: cs =>
    if c = '-' ∨ c = '+' then
      (core cs).map (fun q => if c = '-' then -q else q)
    else core (c :: cs)

/-- Render a rational produced by decimal float parsing back as a
decimal string (approximates Python `repr(float)`; exact whenever the
denominator divides a power of ten, which covers every value the
embedded parsers produce). -/
def floatRepr (q : Rat) : String :=
  let k := (List.range 40).find? (fun k => (q * (10 : Rat) ^ k).den = 1)
  match k with
  | some k =>
    let scaled : Int := (q * (10 : Rat) ^ k).num
    let mag := scaled.natAbs
    let digits := toString mag
    let padded :=
      if digits.length ≤ k then
        String.mk (List.replicate (k + 1 - digits.length) '0') ++ digits
      else digits
    let ip := padded.take (padded.length - k)
    let fp := padded.drop (padded.length - k)
    (if scaled < 0 then "-" else "") ++ ip ++ "." ++ (if fp = "" then "0" else fp)
  | none => toString q.num ++ "/" ++ toString q.den

/-- JSON string escaping as `json.dumps` performs it with the default
`ensure_ascii=True` (control characters and non-ASCII become escapes). -/
def jsonEscapeChar (c : Char) : List Char :=
  if c = '"' then ['\\', '"']
  else if c = '\\' then ['\\', '\\']
  else if c = '\n' then ['\\', 'n']
  else if c = '\t' then ['\\', 't']
  else if c = '\r' then ['\\', 'r']
  else if c.toNat < 0x20 ∨ c.toNat > 0x7e then
    -- \uXXXX escape (basic multilingual plane; astral handling elided)
    let hex := Nat.toDigits 16 c.toNat
    '\\' :: 'u' :: (List.replicate (4 - hex.length) '0' ++ hex)
  else [c]

/-- JSON encoding of a string literal, double-quoted and escaped. -/
def jsonString (s : String) : String :=
  "\"" ++ String.mk (s.toList.flatMap jsonEscapeChar) ++ "\""

/-- Fueled worker for `json.dumps`.  The Bool flag selects between
rendering one value (`false`) and rendering the comma-joined contents
of a list/dict shell (`true`); fuel makes the nested recursion
structural, and `jsonDumps` passes enough for any input. -/
def jsonDumpsW : Nat → Bool → Value → String
  | 0, _, _ => ""
  | _ + 1, false, .vnull => "null"
  | _ + 1, false, .vbool b => if b then "true" else "false"
  | _ + 1, false, .vint n => toString n
  | _ + 1, false, .vfloat q => floatRepr q
  | _ + 1, false, .vstr s => jsonString s
  | fuel + 1, false, .vlist xs => "[" ++ jsonDumpsW fuel true (.vlist xs) ++ "]"
  | fuel + 1, false, .vdict m => "\x7b" ++ jsonDumpsW fuel true (.vdict m) ++ "\x7d"
  | _ + 1, true, .vlist [] => ""
  | fuel + 1, true, .vlist [x] => jsonDumpsW fuel false x
  | fuel + 1, true, .vlist (x :: y :: rest) =>
    jsonDumpsW fuel false x ++ ", " ++ jsonDumpsW fuel true (.vlist (y :: rest))
  | _ + 1, true, .vdict [] => ""
  | fuel + 1, true, .vdict [(k, v)] => jsonString k ++ ": " ++ jsonDumpsW fuel false v
  | fuel + 1, true, .vdict ((k, v) :: p :: rest) =>
    jsonString k ++ ": " ++ jsonDumpsW fuel false v ++ ", " ++
      jsonDumpsW fuel true (.vdict (p :: rest))
  | _ + 1, true, _ => ""

/-- Python `json.dumps(value)` with default arguments: item separator
`", "`, key separator `": "`. -/
def jsonDumps (v : Value) : String :=
  jsonDumpsW 1000000 false v

/-- Fueled worker for `repr`, with the same shape as `jsonDumpsW`. -/
def pyReprW : Nat → Bool → Value → String
  | 0, _, _ => ""
  | _ + 1, false, .vnull => "None"
  | _ + 1, false, .vbool b => if b then "True" else "False"
  | _ + 1, false, .vint n => toString n
  | _ + 1, false, .vfloat q => floatRepr q
  | _ + 1, false, .vstr s => "'" ++ s ++ "'"
  | fuel + 1, false, .vlist xs => "[" ++ pyReprW fuel true (.vlist xs) ++ "]"
  | fuel + 1, false, .vdict m => "\x7b" ++ pyReprW fuel true (.vdict m) ++ "\x7d"
  | _ + 1, true, .vlist [] => ""
  | fuel + 1, true, .vlist [x] => pyReprW fuel false x
  | fuel + 1, true, .vlist (x :: y :: rest) =>
    pyReprW fuel false x ++ ", " ++ pyReprW fuel true (.vlist (y :: rest))
  | _ + 1, true, .vdict [] => ""
  | fuel + 1, true, .vdict [(k, v)] => "'" ++ k ++ "': " ++ pyReprW fuel false v
  | fuel + 1, true, .vdict ((k, v) :: p :: rest) =>
    "'" ++ k ++ "': " ++ pyReprW fuel false v ++ ", " ++
      pyReprW fuel true (.vdict (p :: rest))
  | _ + 1, true, _ => ""

/-- Python `repr` of a value, as it appears when containers are
stringified (single-quoted strings; quote-escaping inside strings is
not modelled). -/
def pyRepr (v : Value) : String :=
  pyReprW 1000000 false v

/-- Python `str(value)`: identity on strings, `True`/`False`/`None`
keywords, decimal for numbers, `repr` for containers. -/
def pyStr : Value → String
  | .vstr s => s
  | v => pyRepr v

/-- Whitespace skipping inside JSON input. -/
def jsonSkipWs (cs : List Char) : List Char :=
  cs.dropWhile (fun c => c = ' ' ∨ c = '\t' ∨ c = '\n' ∨ c = '\r')

/-- Hex digit value, if any. -/
def hexVal (c : Char) : Option Nat :=
  if '0' ≤ c ∧ c ≤ '9' then some (c.toNat - '0'.toNat)
  else if 'a' ≤ c ∧ c ≤ 'f' then some (c.toNat - 'a'.toNat + 10)
  else if 'A' ≤ c ∧ c ≤ 'F' then some (c.toNat - 'A'.toNat + 10)
  else none

/-- Characters that may make up a JSON number literal. -/
def jsonNumChar (c : Char) : Bool :=
  c.isDigit ∨ c = '-' ∨ c = '+' ∨ c = '.' ∨ c = 'e' ∨ c = 'E'

mutual

/-- Fueled recursive-descent parser for one JSON value (models
`json.loads`; the grammar corners the sources never rely on — e.g.
rejecting leading zeros — are not modelled). -/
def jsonValue : Nat → List Char → Except String (Value × List Char)
  | 0, _ => .error "json: out of fuel"
  | _ + 1, [] => .error "json: unexpected end"
  | fuel + 1, c :: cs =>
    if c = 'n' then
      if cs.take 3 = ['u', 'l', 'l'] then .ok (.vnull, cs.drop 3)
      else .error "json: bad literal"
    else if c = 't' then
      if cs.take 3 = ['r', 'u', 'e'] then .ok (.vbool true, cs.drop 3)
      else .error "json: bad literal"
    else if c = 'f' then
      if cs.take 4 = ['a', 'l', 's', 'e'] then .ok (.vbool false, cs.drop 4)
      else .error "json: bad literal"
    else if c = '"' then
      match jsonStringRest fuel cs with
      | .ok (body, rest) => .ok (.vstr (String.mk body), rest)
      | .error e => .error e
    else if c = '[' then
      match jsonSkipWs cs with
      | ']' :: rest => .ok (.vlist [], rest)
      | cs' =>
        match jsonArrayItems fuel cs' with
        | .ok (xs, rest) => .ok (.vlist xs, rest)
        | .error e => .error e
    else if c = '\x7b' then
      match jsonSkipWs cs with
      | '\x7d' :: rest => .ok (.vdict [], rest)
      | cs' =>
        match jsonObjectItems fuel cs' with
        | .ok (m, rest) => .ok (.vdict m, rest)
        | .error e => .error e
    else if jsonNumChar c then
      let lit := (c :: cs).takeWhile jsonNumChar
      let rest := (c :: cs).dropWhile jsonNumChar
      if lit.any (fun ch => ch = '.' ∨ ch = 'e' ∨ ch = 'E') then
        match pyFloatOfString (String.mk lit) with
        | some q => .ok (.vfloat q, rest)
        | none => .error "json: bad number"
      else
        match pyIntOfString (String.mk lit) with
        | some n => .ok (.vint n, rest)
        | none => .error "json: bad number"
    else .error "json: unexpected character"

/-- Contents of a JSON string after its opening quote. -/
def jsonStringRest : Nat → List Char → Except String (List Char × List Char)
  | 0, _ => .error "json: out of fuel"
  | _ + 1, [] => .error "json: unterminated string"
  | fuel + 1, c :: cs =>
    if c = '"' then .ok ([], cs)
    else if c = '\\' then
      match cs with
      | [] => .error "json: bad escape"
      | e :: cs' =>
        let decoded : Except String (Char × List Char) :=
          if e = 'n' then .ok ('\n', cs')
          else if e = 't' then .ok ('\t', cs')
          else if e = 'r' then .ok ('\r', cs')
          else if e = 'b' then .ok ('\x08', cs')
          else if e = 'f' then .ok ('\x0c', cs')
          else if e = '"' ∨ e = '\\' ∨ e = '/' then .ok (e, cs')
          else if e = 'u' then
            match cs' with
            | a :: b :: c2 :: d :: cs'' =>
              match hexVal a, hexVal b, hexVal c2, hexVal d with
              | some ha, some hb, some hc, some hd =>
                .ok (Char.ofNat (((ha * 16 + hb) * 16 + hc) * 16 + hd), cs'')
              | _, _, _, _ => .error "json: bad unicode escape"
            | _ => .error "json: bad unicode escape"
          else .error "json: bad escape"
        match decoded with
        | .ok (ch, rest) =>
          match jsonStringRest fuel rest with
          | .ok (body, rest') => .ok (ch :: body, rest')
          | .error err => .error err
        | .error err => .error err
    else
      match jsonStringRest fuel cs with
      | .ok (body, rest') => .ok (c :: body, rest')
      | .error err => .error err

/-- One-or-more comma-separated JSON array items. -/
def jsonArrayItems : Nat → List Char → Except String (List Value × List Char)
  | 0, _ => .error "json: out of fuel"
  | fuel + 1, cs =>
    match jsonValue fuel (jsonSkipWs cs) with
    | .error e => .error e
    | .ok (v, rest) =>
      match jsonSkipWs rest with
      | ',' :: rest' =>
        match jsonArrayItems fuel rest' with
        | .ok (vs, rest'') => .ok (v :: vs, rest'')
        | .error e => .error e
      | ']' :: rest' => .ok ([v], rest')
      | _ => .error "json: expected comma or bracket"

/-- One-or-more comma-separated JSON object entries. -/
def jsonObjectItems : Nat → List Char → Except String (List (String × Value) × List Char)
  | 0, _ => .error "json: out of fuel"
  | fuel + 1, cs =>
    match jsonSkipWs cs with
    | '"' :: cs' =>
      match jsonStringRest fuel cs' with
      | .error e => .error e
      | .ok (key, rest) =>
        match jsonSkipWs rest with
        | ':' :: rest' =>
          match jsonValue fuel (jsonSkipWs rest') with
          | .error e => .error e
          | .ok (v, rest'') =>
            match jsonSkipWs rest'' with
            | ',' :: rest3 =>
              match jsonObjectItems fuel rest3 with
              | .ok (m, rest4) => .ok ((String.mk key, v) :: m, rest4)
              | .error e => .error e
            | '\x7d' :: rest3 => .ok ([(String.mk key, v)], rest3)
            | _ => .error "json: expected comma or brace"
        | _ => .error "json: expected colon"
    | _ => .error "json: expected key"

end

/-- Python `json.loads(s)`: parse one JSON document, requiring only
trailing whitespace after it. -/
def jsonLoads (s : String) : Except String Value :=
  match jsonValue (s.length + 4) (jsonSkipWs s.toList) with
  | .error e => .error e
  | .ok (v, rest) =>
    if jsonSkipWs rest = [] then .ok v else .error "json: trailing data"

/-! ## `core/types.py` -/

/-- Type classification for state values (`StateType`). -/
inductive StateType where
  | any
  | text
  | number
  | boolean
  | object
  | array
  deriving Repr, DecidableEq

/-- How a step handles multiple incoming edges (`JoinMode`). -/
inductive JoinMode where
  | no_wait
  | all_success
  | all_done
  | first_success
  deriving Repr, DecidableEq

/-- Classification of step types (`StepType`). -/
inductive StepType where
  | trigger_webhook
  | trigger_schedule
  | trigger_event
  | request
  | set_state
  | conditional
  | transform
  | sub_flow
  | delay
  | «switch»
  | conversation_start
  | user_message
  | reply
  deriving Repr, DecidableEq

/-- Result status of a step execution (`StepRunStatus`). -/
inductive StepRunStatus where
  | success
  | error
  deriving Repr, DecidableEq

/-! ## `core/state.py` -/

/-- First-match association-list lookup (Python `dict.get` over our
insertion-ordered map encoding; keys are unique in maps built by
`updateA`). -/
def lookupA {κ α : Type} [DecidableEq κ] (m : List (κ × α)) (k : κ) : Option α :=
  match m with
  | [] => none
  | (k', v) :: rest => if k' = k then some v else lookupA rest k

/-- Python `d[k] = v`: replace the existing entry in place, else append. -/
def updateA {κ α : Type} [DecidableEq κ] (m : List (κ × α)) (k : κ) (v : α) : List (κ × α) :=
  match m with
  | [] => [(k, v)]
  | (k', v') :: rest =>
    if k' = k then (k', v) :: rest else (k', v') :: updateA rest k v

/-- A typed slot in the state container (`StateSlot`). -/
structure StateSlot where
  name : String
  type : StateType := .any
  description : Option String := none
  deriving Repr, DecidableEq

/-- `StateSlot.cast`: coerce a value to the slot's type.  `Except.error`
models an exception escaping the method (`ValueError` from number
parsing, `TypeError` from `float()` on a container,
`json.JSONDecodeError` from `json.loads`). -/
def StateSlot.cast (slot : StateSlot) (value : Value) : Except String Value :=
  match value with
  | .vnull => .ok .vnull
  | v =>
    match slot.type with
    | .text => .ok (.vstr (pyStr v))
    | .number =>
      match v with
      | .vstr s =>
        -- try int first, then float
        match pyIntOfString s with
        | some n => .ok (.vint n)
        | none =>
          match pyFloatOfString s with
          | some q => .ok (.vfloat q)
          | none => .error "ValueError"
      | .vbool b => .ok (.vfloat (if b then 1 else 0))
      | .vint n => .ok (.vfloat n)
      | .vfloat q => .ok (.vfloat q)
      | _ => .error "TypeError"
    | .boolean =>
      match v with
      | .vstr s => .ok (.vbool (pyLower s ∈ ["true", "1", "yes"]))
      | _ => .ok (.vbool (pyTruthy v))
    | .object =>
      match v with
      | .vstr s => jsonLoads s
      | _ => .ok v
    | .array =>
      match v with
      | .vstr s => jsonLoads s
      | _ => .ok v
    | .any => .ok v

/-- Runtime state container with typed slots (`StateContainer`). -/
structure StateContainer where
  slots : List (String × StateSlot) := []
  values : List (String × Value) := []
  deriving Repr

/-- `StateContainer.define`: declare a new typed slot. -/
def StateContainer.define (c : StateContainer) (name : String)
    (type : StateType := .any) (description : Option String := none) :
    StateContainer :=
  { c with slots := updateA c.slots name ⟨name, type, description⟩ }

/-- `StateContainer.set`: store a value, casting through the slot when
one is declared (a cast exception propagates). -/
def StateContainer.set (c : StateContainer) (name : String) (value : Value) :
    Except String StateContainer :=
  match lookupA c.slots name with
  | some slot =>
    match slot.cast value with
    | .ok v => .ok { c with values := updateA c.values name v }
    | .error e => .error e
  | none => .ok { c with values := updateA c.values name value }

/-- `StateContainer.get`: verbatim read with default. -/
def StateContainer.get (c : StateContainer) (name : String)
    (default : Value := .vnull) : Value :=
  (lookupA c.values name).getD default

/-- The traversal loop inside `StateContainer.get_nested`: walk the
remaining dotted segments from the current value. -/
def getNestedGo (default : Value) : Value → List String → Value
  | cur, [] => cur
  | cur, part :: rest =>
    match cur with
    | .vnull => default
    | .vlist xs =>
      -- try array index
      match pyIntOfString part with
      | none => default
      | some i =>
        if 0 ≤ i ∧ i < (xs.length : Int) then
          getNestedGo default (xs.getD i.toNat .vnull) rest
        else default
    | .vdict m =>
      -- try dict key; a missing key or stored None returns the default
      match lookupA m part with
      | none => default
      | some .vnull => default
      | some v => getNestedGo default v rest
    | _ => default

/-- `StateContainer.get_nested`: dotted-path read starting from the
values map. -/
def StateContainer.get_nested (c : StateContainer) (path : String)
    (default : Value := .vnull) : Value :=
  getNestedGo default (.vdict c.values) (splitSep '.' path)

/-- `StateContainer.get_as_string`: empty for missing/None, JSON for
containers, `str` otherwise. -/
def StateContainer.get_as_string (c : StateContainer) (name : String) : String :=
  match lookupA c.values name with
  | none => ""
  | some .vnull => ""
  | some (.vdict m) => jsonDumps (.vdict m)
  | some (.vlist xs) => jsonDumps (.vlist xs)
  | some v => pyStr v

/-! ## `core/interpolation.py` -/

/-- Attempt to match the regex `\{\{([^}]+)\}\}` at the head of the
input: two opening braces, a non-empty run of non-`}` characters, then
two closing braces.  Returns the captured group and the input after the
match. -/
def matchRefAt (cs : List Char) : Option (List Char × List Char) :=
  match cs with
  | c1 :: c2 :: rest =>
    let grp := rest.takeWhile (fun c => c ≠ '}')
    let after := rest.dropWhile (fun c => c ≠ '}')
    if c1 = '{' ∧ c2 = '{' ∧ grp ≠ [] ∧ after.take 2 = ['}', '}'] then
      some (grp, after.drop 2)
    else none
  | _ => none

/-- Leftmost match of `REF_PATTERN` in the input: the text before the
match, the captured group, and the text after the match. -/
def findRef : List Char → Option (List Char × List Char × List Char)
  | [] => none
  | c :: cs =>
    match matchRefAt (c :: cs) with
    | some (grp, rest) => some ([], grp, rest)
    | none =>
      match findRef cs with
      | some (pre, grp, rest) => some (c :: pre, grp, rest)
      | none => none

/-- The `replace_ref` closure inside `resolve_template`: strip the
captured path, read `state.get_nested(path)` (default `None`), then
render: empty string for `None`/missing, JSON for dict/list, `str`
otherwise. -/
def replaceRef (state : StateContainer) (grp : List Char) : String :=
  let path := pyStrip (String.mk grp)
  match state.get_nested path with
  | .vnull => ""
  | .vdict m => jsonDumps (.vdict m)
  | .vlist xs => jsonDumps (.vlist xs)
  | v => pyStr v

/-- The scan performed by `REF_PATTERN.sub(replace_ref, template)`:
leftmost match replaced, scanning resumes after the match (the
substituted text is never re-scanned).  Fueled for structural
recursion; every match consumes at least five characters, so fuel equal
to the input length never runs out (`resolveCharsF_fuel` below shows
the result does not depend on the fuel once sufficient). -/
def resolveCharsF (state : StateContainer) : Nat → List Char → String
  | 0, cs => String.mk cs
  | fuel + 1, cs =>
    match findRef cs with
    | none => String.mk cs
    | some (pre, grp, rest) =>
      String.mk pre ++ replaceRef state grp ++ resolveCharsF state fuel rest

/-- `resolve_template`: replace `\x7b\x7bpath\x7d\x7d` patterns with
state values (string inputs; non-strings pass through unchanged at the
call sites). -/
def resolve_template (template : String) (state : StateContainer) : String :=
  resolveCharsF state template.toList.length template.toList

/-- Target type of an `Interpolated[T]` annotation. -/
inductive TargetType where
  | tstr
  | tint
  | tfloat
  | tbool
  | tdict
  | tlist
  deriving Repr, DecidableEq

/-- `cast_to_type`: coerce the resolved string to the annotation's
target type.  `Except.error` models `ValueError`/`JSONDecodeError`
escaping (the runner catches them as `CONFIG_RESOLUTION_ERROR`). -/
def cast_to_type (value : String) (target : TargetType) : Except String Value :=
  match target with
  | .tstr => .ok (.vstr value)
  | .tint =>
    if value = "" then .ok (.vint 0)
    else
      match pyIntOfString value with
      | some n => .ok (.vint n)
      | none => .error "ValueError"
  | .tfloat =>
    if value = "" then .ok (.vfloat 0)
    else
      match pyFloatOfString value with
      | some q => .ok (.vfloat q)
      | none => .error "ValueError"
  | .tbool =>
    .ok (.vbool (if value = "" then false else pyLower value ∈ ["true", "1", "yes"]))
  | .tdict =>
    if value = "" then .ok (.vdict []) else jsonLoads value
  | .tlist =>
    if value = "" then .ok (.vlist []) else jsonLoads value

/-- Annotation on a configuration field: `Interpolated[T]` or plain. -/
inductive FieldAnn where
  | interp (target : TargetType)
  | plain
  deriving Repr, DecidableEq

/-- A value inside a step configuration tree, as the pydantic walk in
`resolve_config` distinguishes them: a string, a Python dict, a list, a
nested `BaseModel` (list of annotated fields), or any other value. -/
inductive CVal where
  | str (s : String)
  | pydict (m : List (String × CVal))
  | pylist (xs : List CVal)
  | model (fields : List (String × FieldAnn × CVal))
  | other (v : Value)
  deriving Repr

/-- A step configuration: named fields with their annotations. -/
abbrev Config := List (String × FieldAnn × CVal)

/-- Does the character list contain two consecutive opening braces? -/
def containsMarker : List Char → Bool
  | [] => false
  | c :: cs => (['{', '{'].isPrefixOf (c :: cs)) || containsMarker cs

/-- Python `"\x7b\x7b" in s`: substring test for the reference marker. -/
def hasRefMarker (s : String) : Bool :=
  containsMarker s.toList

/-- `resolve_value`: interpolate a single `Interpolated[T]` field value:
strings containing the marker are resolved and cast; everything else is
returned unchanged. -/
def resolve_value (value : CVal) (state : StateContainer) (target : TargetType) :
    Except String CVal :=
  match value with
  | .str s =>
    if hasRefMarker s then
      match cast_to_type (resolve_template s state) target with
      | .ok (.vstr out) => .ok (.str out)
      | .ok v => .ok (.other v)
      | .error e => .error e
    else .ok (.str s)
  | v => .ok v

/-- The recursion modes of the configuration walkers, naming which
source function each position corresponds to: `conf` is the field loop
of `resolve_config`/`extract_refs`, `field ann` the per-field
annotation dispatch, `dictv` the `resolve_dict_values` walk, `items`
the list branch. -/
inductive WalkMode where
  | conf
  | field (ann : FieldAnn)
  | dictv
  | items
  deriving Repr, DecidableEq

/-- The configuration-resolution walk of `resolve_config` and
`resolve_dict_values`, fused into one fueled function so that the
mutual recursion of the source becomes structural (on the fuel).  Mode
`conf` expects a `.model`, `dictv` a `.pydict`, `items` a `.pylist`;
the wrappers below always call it that way, and enough fuel is supplied
that the `RecursionError` arm is unreachable (Python itself raises
`RecursionError` on configurations deeper than its recursion limit). -/
def resolveWalk (state : StateContainer) : Nat → WalkMode → CVal → Except String CVal
  | 0, _, _ => .error "RecursionError"
  | _ + 1, .conf, .model [] => .ok (.model [])
  | fuel + 1, .conf, .model ((name, ann, v) :: rest) =>
    match resolveWalk state fuel (.field ann) v with
    | .error e => .error e
    | .ok v' =>
      match resolveWalk state fuel .conf (.model rest) with
      | .ok (.model rest') => .ok (.model ((name, ann, v') :: rest'))
      | other => other
  | _ + 1, .conf, v => .ok v
  | _ + 1, .field (.interp t), v => resolve_value v state t
  | fuel + 1, .field .plain, .pydict m => resolveWalk state fuel .dictv (.pydict m)
  | fuel + 1, .field .plain, .pylist xs => resolveWalk state fuel .items (.pylist xs)
  | fuel + 1, .field .plain, .model fields =>
    resolveWalk state fuel .conf (.model fields)
  | _ + 1, .field .plain, v => .ok v
  | _ + 1, .dictv, .pydict [] => .ok (.pydict [])
  | fuel + 1, .dictv, .pydict ((k, .str s) :: rest) =>
    match resolveWalk state fuel .dictv (.pydict rest) with
    | .ok (.pydict rest') =>
      .ok (.pydict ((k, .str (if hasRefMarker s then resolve_template s state else s))
        :: rest'))
    | other => other
  | fuel + 1, .dictv, .pydict ((k, .pydict m) :: rest) =>
    match resolveWalk state fuel .dictv (.pydict m) with
    | .ok m' =>
      match resolveWalk state fuel .dictv (.pydict rest) with
      | .ok (.pydict rest') => .ok (.pydict ((k, m') :: rest'))
      | other => other
    | .error e => .error e
  | fuel + 1, .dictv, .pydict ((k, v) :: rest) =>
    match resolveWalk state fuel .dictv (.pydict rest) with
    | .ok (.pydict rest') => .ok (.pydict ((k, v) :: rest'))
    | other => other
  | _ + 1, .dictv, v => .ok v
  | _ + 1, .items, .pylist [] => .ok (.pylist [])
  | fuel + 1, .items, .pylist (.str s :: rest) =>
    match resolveWalk state fuel .items (.pylist rest) with
    | .ok (.pylist rest') =>
      .ok (.pylist (.str (if hasRefMarker s then resolve_template s state else s)
        :: rest'))
    | other => other
  | fuel + 1, .items, .pylist (.model fields :: rest) =>
    match resolveWalk state fuel .conf (.model fields) with
    | .error e => .error e
    | .ok fields' =>
      match resolveWalk state fuel .items (.pylist rest) with
      | .ok (.pylist rest') => .ok (.pylist (fields' :: rest'))
      | other => other
  | fuel + 1, .items, .pylist (v :: rest) =>
    match resolveWalk state fuel .items (.pylist rest) with
    | .ok (.pylist rest') => .ok (.pylist (v :: rest'))
    | other => other
  | _ + 1, .items, v => .ok v

/-- `resolve_config`: walk the configuration's fields, resolving
`Interpolated` fields via `resolve_value`, dicts via the
`resolve_dict_values` walk, lists element-wise (strings resolved
without coercion, nested models recursively), and nested models
recursively.  The rebuilt pydantic instance is modelled as the resolved
field list. -/
def resolve_config (config : Config) (state : StateContainer) : Except String Config :=
  match resolveWalk state 1000000 .conf (.model config) with
  | .ok (.model fields) => .ok fields
  | .ok _ => .error "unreachable"
  | .error e => .error e

/-- `resolve_dict_values`: resolve string values containing the marker,
recurse into nested dicts, leave everything else unchanged (no type
coercion; this walk never raises). -/
def resolve_dict_values (d : List (String × CVal)) (state : StateContainer) :
    List (String × CVal) :=
  match resolveWalk state 1000000 .dictv (.pydict d) with
  | .ok (.pydict m) => m
  | _ => d

/-- All stripped capture groups of `REF_PATTERN.finditer`, left to
right (fueled; a match consumes at least five characters, so fuel equal
to the input length never runs out). -/
def findAllRefsF : Nat → List Char → List String
  | 0, _ => []
  | fuel + 1, cs =>
    match findRef cs with
    | none => []
    | some (_, grp, rest) => pyStrip (String.mk grp) :: findAllRefsF fuel rest

/-- All stripped capture groups of `REF_PATTERN.finditer` in the
input, left to right. -/
def findAllRefs (cs : List Char) : List String :=
  findAllRefsF cs.length cs

/-- The reference-extraction walk of `extract_refs`, fused into one
fueled function exactly like `resolveWalk` (same modes, same
unreachable fuel arm).  Dict values are scanned only one level deep —
the source does not recurse into nested dicts here — and list items
that are nested models recurse with their own field names. -/
def extractWalk : Nat → WalkMode → String → CVal → List (String × String)
  | 0, _, _, _ => []
  | _ + 1, .conf, _, .model [] => []
  | fuel + 1, .conf, outer, .model ((name, ann, v) :: rest) =>
    extractWalk fuel (.field ann) name v ++ extractWalk fuel .conf outer (.model rest)
  | _ + 1, .conf, _, _ => []
  | _ + 1, .field (.interp _), name, .str s =>
    (findAllRefs s.toList).map (fun r => (name, r))
  | _ + 1, .field (.interp _), _, _ => []
  | fuel + 1, .field .plain, name, .pydict m => extractWalk fuel .dictv name (.pydict m)
  | fuel + 1, .field .plain, name, .pylist xs => extractWalk fuel .items name (.pylist xs)
  | fuel + 1, .field .plain, name, .model fields =>
    extractWalk fuel .conf name (.model fields)
  | _ + 1, .field .plain, _, _ => []
  | _ + 1, .dictv, _, .pydict [] => []
  | fuel + 1, .dictv, name, .pydict ((_, .str s) :: rest) =>
    (findAllRefs s.toList).map (fun r => (name, r)) ++
      extractWalk fuel .dictv name (.pydict rest)
  | fuel + 1, .dictv, name, .pydict ((_, _) :: rest) =>
    extractWalk fuel .dictv name (.pydict rest)
  | _ + 1, .dictv, _, _ => []
  | _ + 1, .items, _, .pylist [] => []
  | fuel + 1, .items, name, .pylist (.str s :: rest) =>
    (findAllRefs s.toList).map (fun r => (name, r)) ++
      extractWalk fuel .items name (.pylist rest)
  | fuel + 1, .items, name, .pylist (.model fields :: rest) =>
    extractWalk fuel .conf name (.model fields) ++
      extractWalk fuel .items name (.pylist rest)
  | fuel + 1, .items, name, .pylist (_ :: rest) =>
    extractWalk fuel .items name (.pylist rest)
  | _ + 1, .items, _, _ => []

/-- `extract_refs`: collect `(field_name, stripped_ref)` pairs from a
configuration, in field order. -/
def extract_refs (config : Config) : List (String × String) :=
  extractWalk 1000000 .conf "" (.model config)

/-! ## `steps/base.py` -/

/-- Error information from a failed step execution (`StepError`). -/
structure StepError where
  message : String
  code : Option String := none
  details : List (String × Value) := []
  deriving Repr

/-- Result of a step execution (`StepRunResult`). -/
structure StepRunResult where
  step_id : Nat
  status : StepRunStatus
  fired_ports : List String := ["default"]
  continue_without_waiting : Bool := false
  output_data : Option (List (String × Value)) := none
  error : Option StepError := none
  deriving Repr

/-- `StepRunResult.success`. -/
def StepRunResult.success (step_id : Nat)
    (fired_ports : Option (List String) := none)
    (output_data : Option (List (String × Value)) := none)
    (continue_without_waiting : Bool := false) : StepRunResult :=
  { step_id := step_id
    status := .success
    fired_ports := match fired_ports with
      | some ps => if ps.isEmpty then ["default"] else ps
      | none => ["default"]
    output_data := output_data
    continue_without_waiting := continue_without_waiting }

/-- `StepRunResult.failure`.  The `fired_ports` expression in the
source parses, by Python operator precedence, as
`(fired_ports or ["error"]) if "error" in (fired_ports or []) else ["default"]`,
which this definition translates verbatim (`or` on lists treats `None`
and `[]` as falsy). -/
def StepRunResult.failure (step_id : Nat) (message : String)
    (code : Option String := none)
    (details : List (String × Value) := [])
    (fired_ports : Option (List String) := none) : StepRunResult :=
  { step_id := step_id
    status := .error
    fired_ports :=
      if "error" ∈ (match fired_ports with | some ps => ps | none => []) then
        match fired_ports with
        | some ps => if ps.isEmpty then ["error"] else ps
        | none => ["error"]
      else ["default"]
    error := some { message := message, code := code, details := details } }

/-- A workflow step (`Step`).  The abstract async `run` method is
modelled as a pure function from the shared state and the resolved
config to the mutated state and either a result or a raised exception
(`Except.error`). -/
structure Step where
  id : Nat
  type : StepType
  join_mode : JoinMode := .no_wait
  is_trigger : Bool := false
  ports : List String := ["default"]
  outputKeys : List String := []
  config : Config := []
  run : StateContainer → Config → StateContainer × Except String StepRunResult

/-! ## `flow/edge.py` and `flow/flow.py` -/

/-- Directed connection between two steps' ports (`Edge`). -/
structure Edge where
  id : Nat := 0
  source_step_id : Nat
  source_port : String := "default"
  target_step_id : Nat
  target_port : String := "default"
  deriving Repr, DecidableEq

/-- A flow: steps, edges, and (implicitly) the id index (`Flow`).  The
index `\x7bstep.id: step\x7d` maps each id to the last step carrying
it. -/
structure Flow where
  name : Option String := none
  steps : List Step := []
  edges : List Edge := []

/-- `Flow.get_step`: the step index lookup (last step with the id, as
dict construction overwrites earlier entries). -/
def Flow.get_step (flow : Flow) (step_id : Nat) : Option Step :=
  flow.steps.reverse.find? (fun s => s.id = step_id)

/-- `Flow.get_edges_from`: edges out of a step, optionally filtered by
source port. -/
def Flow.get_edges_from (flow : Flow) (step_id : Nat)
    (port : Option String := none) : List Edge :=
  let edges := flow.edges.filter (fun e => e.source_step_id = step_id)
  match port with
  | some p => edges.filter (fun e => e.source_port = p)
  | none => edges

/-- `Flow.get_edges_to`: edges into a step (no port filter). -/
def Flow.get_edges_to (flow : Flow) (step_id : Nat) : List Edge :=
  flow.edges.filter (fun e => e.target_step_id = step_id)

/-- `Flow.get_trigger_steps`. -/
def Flow.get_trigger_steps (flow : Flow) : List Step :=
  flow.steps.filter (fun s => s.is_trigger)

/-- The BFS worklist loop of `Flow.steps_before` (fueled; the fuel
chosen by `steps_before` bounds every reachable queue). -/
def stepsBeforeGo (flow : Flow) : Nat → List Nat → List Nat → List Step
  | 0, _, _ => []
  | _ + 1, _, [] => []
  | fuel + 1, visited, step_id :: queue =>
    if step_id ∈ visited then stepsBeforeGo flow fuel visited queue
    else
      match flow.get_step step_id with
      | some upstream =>
        upstream :: stepsBeforeGo flow fuel (step_id :: visited)
          (queue ++ (flow.get_edges_to step_id).map (fun e => e.source_step_id))
      | none => stepsBeforeGo flow fuel (step_id :: visited) queue

/-- `Flow.steps_before`: all upstream steps of a step, BFS over
incoming edges with no port filter. -/
def Flow.steps_before (flow : Flow) (step : Step) : List Step :=
  let start := (flow.get_edges_to step.id).map (fun e => e.source_step_id)
  stepsBeforeGo flow ((flow.edges.length + 1) * (flow.edges.length + flow.steps.length + 1))
    [] start

/-! ## `events.py` -/

/-- Events yielded during flow execution (timestamps, being wall-clock,
are not modelled; `duration_ms` counts abstract scheduler ticks). -/
inductive Event where
  | flowStarted (run_id : Nat) (flow_name : Option String)
  | stepStarted (run_id : Nat) (step_id : Nat) (step_type : StepType)
  | stepCompleted (run_id : Nat) (step_id : Nat) (result : StepRunResult)
      (duration_ms : Nat) (state_snapshot : Option (List (String × Value)))
  | flowCompleted (run_id : Nat) (status : String)
  deriving Repr

/-! ## `flow/runner.py` -/

/-- Tracks incoming edge completions for join semantics
(`JoinTracker`): latest result per source step id. -/
structure JoinTracker where
  arrivals : List (Nat × StepRunResult) := []
  deriving Repr

/-- `JoinTracker.record`: keyed on the edge's source step, so parallel
edges from one source coalesce. -/
def JoinTracker.record (t : JoinTracker) (result : StepRunResult) (edge : Edge) :
    JoinTracker :=
  { arrivals := updateA t.arrivals edge.source_step_id result }

/-- Python set equality between two id collections. -/
def eqAsSets (a b : List Nat) : Bool :=
  a.all (fun x => x ∈ b) ∧ b.all (fun x => x ∈ a)

/-- `JoinTracker.is_ready`: readiness of the target step under its join
mode, given all edges pointing to it. -/
def JoinTracker.is_ready (t : JoinTracker) (join_mode : JoinMode)
    (incoming_edges : List Edge) : Bool :=
  let expected_sources := incoming_edges.map (fun e => e.source_step_id)
  let arrived_sources := t.arrivals.map (fun a => a.1)
  match join_mode with
  | .no_wait =>
    -- execute on any arrival
    ¬ t.arrivals.isEmpty
  | .all_success =>
    -- wait for all to arrive, and all must succeed
    if ¬ eqAsSets arrived_sources expected_sources then false
    else t.arrivals.all (fun a => a.2.status = .success)
  | .all_done =>
    -- wait for all regardless of success/failure
    eqAsSets arrived_sources expected_sources
  | .first_success =>
    -- execute when first success arrives
    t.arrivals.any (fun a => a.2.status = .success)

/-- `execute_step`: run the step body, converting an escaping exception
into an `EXECUTION_ERROR` failure result. -/
def execute_step (step : Step) (state : StateContainer) (resolved_config : Config) :
    StateContainer × StepRunResult :=
  match step.run state resolved_config with
  | (state', .ok r) => (state', r)
  | (state', .error e) =>
    (state', StepRunResult.failure step.id ("Step execution failed: " ++ e)
      (some "EXECUTION_ERROR") [("exception_type", .vstr e)])

/-- The driver's bookkeeping for one run (`pending`, `running`,
`join_trackers`, `results`, `step_start_times`, plus the event log, the
shared state, and an abstract monotonic clock). -/
structure RunnerState where
  pending : List Nat := []
  running : List (Nat × Step × Config) := []
  join_trackers : List (Nat × JoinTracker) := []
  results : List StepRunResult := []
  state : StateContainer := {}
  events : List Event := []
  clock : Nat := 0
  start_times : List (Nat × Nat) := []

/-- `pending.add`: a step id already present is re-added benignly. -/
def pendingAdd (pending : List Nat) (step_id : Nat) : List Nat :=
  if step_id ∈ pending then pending else pending ++ [step_id]

/-- Selection phase of the scheduling loop: walk `pending` in order,
silently discarding ids missing from the flow index, skipping steps
with incoming edges and a non-`NO_WAIT` join mode whose tracker is not
ready.  Returns the launch list and the pending set after discards. -/
def selectLaunchable (flow : Flow) (pending : List Nat)
    (trackers : List (Nat × JoinTracker)) : List Nat × List Nat :=
  match pending with
  | [] => ([], [])
  | step_id :: rest =>
    let s := selectLaunchable flow rest trackers
    match flow.get_step step_id with
    | none => s
    | some step =>
      let incoming := flow.get_edges_to step_id
      if ¬ incoming.isEmpty ∧ step.join_mode ≠ .no_wait then
        if ((lookupA trackers step_id).getD {}).is_ready step.join_mode incoming then
          (step_id :: s.1, step_id :: s.2)
        else (s.1, step_id :: s.2)
      else (step_id :: s.1, step_id :: s.2)

/-- Launch phase for one selected step: remove from pending, emit
`StepStarted`, resolve the config — on failure record an immediate
`CONFIG_RESOLUTION_ERROR` result with a zero-duration `StepCompleted`
and do not route; on success record the start time and add the task to
`running`. -/
def launchStep (flow : Flow) (run_id : Nat) (rs : RunnerState) (step_id : Nat) :
    RunnerState :=
  let pending' := rs.pending.erase step_id
  match flow.get_step step_id with
  | none => { rs with pending := pending' }
  | some step =>
    let events' := rs.events ++ [.stepStarted run_id step_id step.type]
    match resolve_config step.config rs.state with
    | .error e =>
      let result := StepRunResult.failure step_id
        ("Config resolution failed: " ++ e) (some "CONFIG_RESOLUTION_ERROR")
      { rs with
          pending := pending'
          results := rs.results ++ [result]
          events := events' ++ [.stepCompleted run_id step_id result 0 none] }
    | .ok cfg =>
      { rs with
          pending := pending'
          events := events'
          start_times := updateA rs.start_times step_id rs.clock
          running := rs.running ++ [(step_id, step, cfg)] }

/-- Record an arrival and enqueue the target, for each edge out of one
fired port. -/
def routeEdgesGo (result : StepRunResult) :
    List Edge → List (Nat × JoinTracker) → List Nat →
      List (Nat × JoinTracker) × List Nat
  | [], trackers, pending => (trackers, pending)
  | e :: es, trackers, pending =>
    let t := ((lookupA trackers e.target_step_id).getD {}).record result e
    routeEdgesGo result es (updateA trackers e.target_step_id t)
      (pendingAdd pending e.target_step_id)

/-- Route a completed result along all its fired ports. -/
def routePortsGo (flow : Flow) (step_id : Nat) (result : StepRunResult) :
    List String → List (Nat × JoinTracker) → List Nat →
      List (Nat × JoinTracker) × List Nat
  | [], trackers, pending => (trackers, pending)
  | p :: ps, trackers, pending =>
    let (trackers', pending') :=
      routeEdgesGo result (flow.get_edges_from step_id (some p)) trackers pending
    routePortsGo flow step_id result ps trackers' pending'

/-- Completion handling for one finished task: record the result, emit
`StepCompleted` with a fresh snapshot of the state values, then — unless
the result is fire-and-forget — record arrivals at every successor and
enqueue them. -/
def completeTask (flow : Flow) (run_id : Nat) (rs : RunnerState)
    (task : Nat × Step × Config) : RunnerState :=
  let step_id := task.1
  let (state', result) := execute_step task.2.1 rs.state task.2.2
  let start := (lookupA rs.start_times step_id).getD rs.clock
  let rs' : RunnerState :=
    { rs with
        state := state'
        results := rs.results ++ [result]
        events := rs.events ++
          [.stepCompleted run_id step_id result (rs.clock - start) (some state'.values)]
        start_times := rs.start_times.filter (fun st => st.1 ≠ step_id) }
  if result.continue_without_waiting then rs'
  else
    let (trackers', pending') :=
      routePortsGo flow step_id result result.fired_ports rs'.join_trackers rs'.pending
    { rs' with join_trackers := trackers', pending := pending' }

/-- The scheduling loop (`while pending or running`), fueled.  The
asyncio wait point is determinized: every launched task completes in
the round it was launched, and completions are processed in launch
order — one admissible schedule of the event loop.  `none` means the
fuel ran out before quiescence. -/
def runLoop (flow : Flow) (run_id : Nat) : Nat → RunnerState → Option RunnerState
  | 0, _ => none
  | fuel + 1, rs =>
    if rs.pending.isEmpty ∧ rs.running.isEmpty then some rs
    else
      let (toLaunch, pending') := selectLaunchable flow rs.pending rs.join_trackers
      let rs1 := toLaunch.foldl (launchStep flow run_id) { rs with pending := pending' }
      if rs1.running.isEmpty then some rs1
      else
        let rs2 := { rs1 with clock := rs1.clock + 1 }
        let rs3 := rs2.running.foldl (completeTask flow run_id) { rs2 with running := [] }
        runLoop flow run_id fuel rs3

/-- Determine the final status and emit `FlowCompleted` once the loop
reaches quiescence (the tail of `run_flow`). -/
def finalizeRun (run_id : Nat) :
    Option RunnerState → Option (List Event × List StepRunResult × StateContainer)
  | none => none
  | some rs =>
    let final_status :=
      if rs.results.all (fun r => r.status = .success) then "succeeded" else "failed"
    some (rs.events ++ [.flowCompleted run_id final_status], rs.results, rs.state)

/-- `run_flow`: emit `FlowStarted`, drive the loop to quiescence, then
emit `FlowCompleted` whose status is `"succeeded"` exactly when every
recorded result succeeded.  Returns the event log, the result log and
the final state. -/
def run_flow (flow : Flow) (trigger_step_id : Nat)
    (initial_state : Option StateContainer := none) (fuel : Nat := 1000) :
    Option (List Event × List StepRunResult × StateContainer) :=
  let run_id := 0
  let rs0 : RunnerState :=
    { pending := [trigger_step_id]
      state := initial_state.getD {}
      events := [.flowStarted run_id flow.name] }
  finalizeRun run_id (runLoop flow run_id fuel rs0)

/-! ## `validation/validator.py` -/

/-- A finding from flow validation (`ValidationError`). -/
structure ValidationError where
  step_id : Nat
  field : String
  reference : String
  message : String
  level : String := "error"
  deriving Repr, DecidableEq

/-- The root segment of a reference: everything before the first dot
(`ref.split(".")[0]`). -/
def rootOf (ref : String) : String :=
  (splitSep '.' ref).headD ""

/-- Python truthiness of a configuration field value (for
`hasattr(config, "key") and config.key`). -/
def cvalTruthy : CVal → Bool
  | .str s => s ≠ ""
  | .pydict m => ¬ m.isEmpty
  | .pylist xs => ¬ xs.isEmpty
  | .model _ => true
  | .other v => pyTruthy v

/-- Read a named field of a configuration, if declared
(`hasattr`/`getattr`). -/
def configField (config : Config) (name : String) : Option CVal :=
  (config.find? (fun f => f.1 = name)).map (fun f => f.2.2)

/-- Add a key to the availability set (Python `set.add`). -/
def addKey (keys : List String) (k : String) : List String :=
  if k ∈ keys then keys else keys ++ [k]

/-- The loop body of `get_available_keys_before` for one upstream step:
add its declared output keys, then its configured `key` when that
attribute exists and is truthy (set-state's `key` is a string; only a
string value can land in the key set). -/
def availStep (keys : List String) (upstream : Step) : List String :=
  let keys := upstream.outputKeys.foldl addKey keys
  match configField upstream.config "key" with
  | some v =>
    if cvalTruthy v then
      match v with
      | .str s => addKey keys s
      | _ => keys
    else keys
  | none => keys

/-- `get_available_keys_before`: union over every upstream step of its
declared output keys, plus its configured `key` field when that
attribute exists and is truthy. -/
def get_available_keys_before (flow : Flow) (step : Step) : List String :=
  (flow.steps_before step).foldl availStep []

/-- Python `repr(sorted(keys))` as interpolated into the finding
message. -/
def sortedKeysRepr (keys : List String) : String :=
  pyRepr (.vlist ((sortStrings keys).map .vstr))

/-- The `available_keys` local of `validate_flow` for one step: the
upstream availability, with the step's own declared outputs added when
it is a trigger. -/
def stepAvailableSet (flow : Flow) (step : Step) : List String :=
  let available := get_available_keys_before flow step
  if step.is_trigger then step.outputKeys.foldl addKey available
  else available

/-- The findings `validate_flow` produces for one step: one error-level
finding per extracted reference whose root segment is not in the
available-key set. -/
def stepFindings (flow : Flow) (step : Step) : List ValidationError :=
  (extract_refs step.config).filterMap (fun fr =>
    if rootOf fr.2 ∈ stepAvailableSet flow step then none
    else some
      { step_id := step.id
        field := fr.1
        reference := fr.2
        message := "'" ++ fr.2 ++ "' not found. Available: " ++
          sortedKeysRepr (stepAvailableSet flow step) })

/-- `validate_flow`: all reference-availability findings, in flow
order. -/
def validate_flow (flow : Flow) : List ValidationError :=
  flow.steps.flatMap (fun step => stepFindings flow step)

/-! ## Concrete steps (`steps/triggers/webhook.py`,
`steps/execution/set_state.py`), used to instantiate runs -/

/-- The `run` body of `TriggerWebhook`: trigger data was injected into
state beforehand, so it simply succeeds firing `default`. -/
def triggerWebhookRun (id : Nat) :
    StateContainer → Config → StateContainer × Except String StepRunResult :=
  fun state _ =>
    (state, .ok { step_id := id, status := .success, fired_ports := ["default"] })

/-- A `TriggerWebhook` step: static `default` port, declared outputs
`body`/`headers`/`method`/`query`. -/
def mkTriggerWebhook (id : Nat) (path : String) : Step :=
  { id := id
    type := .trigger_webhook
    is_trigger := true
    ports := ["default"]
    outputKeys := ["body", "headers", "method", "query"]
    config := [("method", .plain, .str "POST"), ("path", .plain, .str path)]
    run := triggerWebhookRun id }

/-- The `run` body of `StepSetState`: store the resolved `value` string
under `key` and succeed firing `default`. -/
def stepSetStateRun (id : Nat) :
    StateContainer → Config → StateContainer × Except String StepRunResult :=
  fun state cfg =>
    match configField cfg "key", configField cfg "value" with
    | some (.str k), some (.str v) =>
      match state.set k (.vstr v) with
      | .ok state' =>
        (state', .ok { step_id := id, status := .success, fired_ports := ["default"],
                       output_data := some [(k, .vstr v)] })
      | .error e => (state, .error e)
    | _, _ => (state, .error "AttributeError")

/-- A `StepSetState` step: plain `key` field, `Interpolated[str]`
`value` field, no declared outputs (the validator reads `config.key`). -/
def mkSetState (id : Nat) (key value : String) : Step :=
  { id := id
    type := .set_state
    ports := ["default"]
    config := [("key", .plain, .str key), ("value", .interp .tstr, .str value)]
    run := stepSetStateRun id }

/-! ## Specification-side definitions

These follow the wording of the specification's claims, to be compared
with the definitions embedded from the source. -/

/-- Spec-side dotted-path traversal, worded as the specification
describes `get_nested`: at each segment a dict is read by key (a
missing or `None` value yields the default), a list is indexed by the
integer parse of the segment (a non-integer segment or out-of-range
index yields the default), any other intermediate value yields the
default; otherwise the finally reached value is returned. -/
def specTraverse (default : Value) : List String → Value → Value
  | [], cur => cur
  | seg :: rest, .vdict m =>
    match lookupA m seg with
    | none => default
    | some .vnull => default
    | some v => specTraverse default rest v
  | seg :: rest, .vlist xs =>
    match pyIntOfString seg with
    | none => default
    | some i =>
      if 0 ≤ i ∧ i < (xs.length : Int) then
        specTraverse default rest (xs.getD i.toNat .vnull)
      else default
  | _ :: _, _ => default

/-- Spec-side replacement rule for one matched reference, as the claim
words it: trim the captured path, read `get_nested`; the empty string
when the value is missing/None, the JSON encoding when it is a mapping
or list, the string form otherwise. -/
def refReplacementSpec (st : StateContainer) (g : String) : String :=
  match st.get_nested (pyStrip g) with
  | .vnull => ""
  | .vdict m => jsonDumps (.vdict m)
  | .vlist xs => jsonDumps (.vlist xs)
  | v => pyStr v

/-- Spec-side availability as the claim words it (unamended): a key is
available at a step when some upstream step (BFS over incoming edges)
declares it as an output or is a set-state step configured with that
key, or when the step is a trigger declaring it itself. -/
def specAvailableClaim (flow : Flow) (step : Step) (k : String) : Prop :=
  (∃ u ∈ flow.steps_before step, k ∈ u.outputKeys ∨
      (u.type = .set_state ∧ configField u.config "key" = some (.str k))) ∨
  (step.is_trigger ∧ k ∈ step.outputKeys)

/-- Spec-side availability, amended: a set-state key counts only when
it is non-empty (the code adds `config.key` only when truthy). -/
def specAvailable (flow : Flow) (step : Step) (k : String) : Prop :=
  (∃ u ∈ flow.steps_before step, k ∈ u.outputKeys ∨
      (u.type = .set_state ∧ configField u.config "key" = some (.str k) ∧ k ≠ "")) ∨
  (step.is_trigger ∧ k ∈ step.outputKeys)

/-! ## Concrete fixtures for witnesses and counterexamples -/

/-- A step whose body always raises, with an explicit `error` port
(shaped like the HTTP request step). -/
def stepThrowing : Step :=
  { id := 7
    type := .request
    ports := ["success", "error"]
    config := []
    run := fun st _ => (st, .error "RuntimeError") }

/-- A join tracker holding successful arrivals from sources 1 and 2. -/
def trackerTwoArrivals : JoinTracker :=
  ⟨[(1, StepRunResult.success 1), (2, StepRunResult.success 2)]⟩

/-- A single incoming edge from source 1 to target 9. -/
def edgeFromOne : Edge :=
  { source_step_id := 1, target_step_id := 9 }

/-- A step whose `seconds` field is `Interpolated[int]`, so that config
resolution raises `ValueError` when the reference resolves to a
non-numeric string. -/
def stepBadInt : Step :=
  { id := 2
    type := .delay
    ports := ["default"]
    config := [("seconds", .interp .tint, .str "\x7b\x7bw\x7d\x7d")]
    run := fun st _ => (st, .ok (StepRunResult.success 2)) }

/-- Trigger feeding the int-interpolating step: its config resolution
fails when state `w` is non-numeric. -/
def flowCfgError : Flow :=
  { steps := [mkTriggerWebhook 1 "/t", stepBadInt]
    edges := [{ source_step_id := 1, target_step_id := 2 }] }

/-- Initial state making `stepBadInt`'s config resolution throw. -/
def stateW : StateContainer :=
  { values := [("w", .vstr "abc")] }

/-- Trigger feeding a set-state whose value references an unavailable
root. -/
def flowBadRef : Flow :=
  { steps := [mkTriggerWebhook 1 "/t", mkSetState 2 "y" "\x7b\x7bnope.a\x7d\x7d"]
    edges := [{ source_step_id := 1, target_step_id := 2 }] }

/-- Set-state step with an empty configured key. -/
def stepEmptyKey : Step := mkSetState 10 "" "v"

/-- Step whose interpolated field holds a whitespace-only reference
(its stripped path, and hence its root segment, is the empty string). -/
def stepEmptyRef : Step :=
  { id := 11
    type := .delay
    ports := ["default"]
    config := [("note", .interp .tstr, .str "\x7b\x7b \x7d\x7d")]
    run := fun st _ => (st, .ok (StepRunResult.success 11)) }

/-- Empty-key set-state feeding the empty-reference step. -/
def flowEmptyKey : Flow :=
  { steps := [stepEmptyKey, stepEmptyRef]
    edges := [{ source_step_id := 10, target_step_id := 11 }] }

/-- A small state for interpolation witnesses. -/
def stateInterp : StateContainer :=
  { values := [("x", .vstr "a"), ("user", .vdict [("name", .vstr "Alice")])] }

/-- The event log of running `flowCfgError` from its trigger with state
`stateW`: the trigger succeeds, the second step's config resolution
raises, the run is reported failed. -/
def cfgErrorRunEvents : List Event :=
  [.flowStarted 0 none,
   .stepStarted 0 1 .trigger_webhook,
   .stepCompleted 0 1 { step_id := 1, status := .success, fired_ports := ["default"] }
     1 (some [("w", .vstr "abc")]),
   .stepStarted 0 2 .delay,
   .stepCompleted 0 2
     { step_id := 2, status := .error, fired_ports := ["default"],
       error := some { message := "Config resolution failed: ValueError",
                       code := some "CONFIG_RESOLUTION_ERROR" } }
     0 none,
   .flowCompleted 0 "failed"]

/-- The result log of the same run. -/
def cfgErrorRunResults : List StepRunResult :=
  [{ step_id := 1, status := .success, fired_ports := ["default"] },
   { step_id := 2, status := .error, fired_ports := ["default"],
     error := some { message := "Config resolution failed: ValueError",
                     code := some "CONFIG_RESOLUTION_ERROR" } }]

/-- Spec-side BOOLEAN coercion rule as the claim words it: a string
maps to membership of its lowercase form in \x7b"true","1","yes"\x7d,
anything else to its truthiness. -/
def booleanCastSpec (v : Value) : Bool :=
  match v with
  | .vstr s => decide (pyLower s ∈ ["true", "1", "yes"])
  | w => pyTruthy w

/-! ## Shared helper lemmas -/

theorem lookupA_updateA {κ α : Type} [DecidableEq κ] (m : List (κ × α)) (k : κ) (v : α) :
    lookupA (updateA m k v) k = some v := by
  induction m with
  | nil => simp [updateA, lookupA]
  | cons p rest ih =>
    obtain ⟨k', v'⟩ := p
    by_cases h : k' = k
    · subst h; simp [updateA, lookupA]
    · simp [updateA, lookupA, h, ih]

theorem is_ready_all_success (t : JoinTracker) (edges : List Edge) :
    t.is_ready .all_success edges =
      (eqAsSets (t.arrivals.map Prod.fst) (edges.map fun e => e.source_step_id) &&
       t.arrivals.all (fun a => decide (a.2.status = .success))) := by
  simp only [JoinTracker.is_ready]
  cases hb : eqAsSets (t.arrivals.map Prod.fst) (edges.map fun e => e.source_step_id) <;>
    simp [hb]

theorem matchRefAt_length {cs g r : List Char} (h : matchRefAt cs = some (g, r)) :
    r.length < cs.length := by
  cases cs with
  | nil => simp [matchRefAt] at h
  | cons c1 cs1 =>
    cases cs1 with
    | nil => simp [matchRefAt] at h
    | cons c2 rest =>
      have hsub := List.Sublist.length_le
        (List.dropWhile_sublist (l := rest) (p := fun c => c ≠ '}'))
      simp only [matchRefAt] at h
      split at h
      · rename_i hcond
        simp only [Option.some.injEq, Prod.mk.injEq] at h
        obtain ⟨-, hr⟩ := h
        subst hr
        have h2 : 2 ≤ (rest.dropWhile (fun c => c ≠ '}')).length := by
          have := congrArg List.length hcond.2.2.2
          simp only [List.length_take, List.length_cons, List.length_nil] at this
          omega
        simp only [List.length_drop, List.length_cons]
        omega
      · simp at h

theorem findRef_length {cs pre g r : List Char}
    (h : findRef cs = some (pre, g, r)) : r.length < cs.length := by
  induction cs generalizing pre with
  | nil => simp [findRef] at h
  | cons c cs ih =>
    unfold findRef at h
    revert h
    cases hm : matchRefAt (c :: cs) with
    | some gr =>
      obtain ⟨g', r'⟩ := gr
      intro h
      have hlt := matchRefAt_length hm
      simp only [Option.some.injEq, Prod.mk.injEq] at h
      obtain ⟨-, -, hr⟩ := h
      subst hr
      exact hlt
    | none =>
      cases hf : findRef cs with
      | none => intro h; simp at h
      | some pgr =>
        obtain ⟨p', g', r'⟩ := pgr
        intro h
        simp only [Option.some.injEq, Prod.mk.injEq] at h
        obtain ⟨-, hg, hr⟩ := h
        subst hg hr
        have hlt := ih hf
        simp only [List.length_cons]
        omega

theorem toList_mk (l : List Char) : (String.mk l).toList = l := rfl

theorem matchRefAt_eq_none_of_no_marker {c : Char} {cs : List Char}
    (h : (['{', '{'].isPrefixOf (c :: cs)) = false) : matchRefAt (c :: cs) = none := by
  cases cs with
  | nil => rfl
  | cons c2 rest =>
    simp only [matchRefAt]
    rw [if_neg]
    rintro ⟨h1, h2, -⟩
    subst h1 h2
    simp [List.isPrefixOf] at h

theorem findRef_eq_none_of_no_marker :
    ∀ {cs : List Char}, containsMarker cs = false → findRef cs = none := by
  intro cs
  induction cs with
  | nil => intro _; rfl
  | cons c cs ih =>
    intro h
    simp only [containsMarker, Bool.or_eq_false_iff] at h
    unfold findRef
    rw [matchRefAt_eq_none_of_no_marker h.1, ih h.2]

theorem takeWhile_dropWhile_marker (g tl : List Char) (hg : ∀ c ∈ g, c ≠ '}') :
    (g ++ '}' :: tl).takeWhile (fun c => decide (c ≠ '}')) = g ∧
    (g ++ '}' :: tl).dropWhile (fun c => decide (c ≠ '}')) = '}' :: tl := by
  induction g with
  | nil =>
    constructor
    · rw [List.nil_append, List.takeWhile_cons_of_neg (by simp)]
    · rw [List.nil_append, List.dropWhile_cons_of_neg (by simp)]
  | cons c g ih =>
    have hc : c ≠ '}' := hg c (by simp)
    have ih' := ih (fun x hx => hg x (by simp [hx]))
    constructor
    · rw [List.cons_append, List.takeWhile_cons_of_pos (by simp [hc]), ih'.1]
    · rw [List.cons_append, List.dropWhile_cons_of_pos (by simp [hc]), ih'.2]

theorem findRef_decomp (pre g rest : List Char)
    (hpre : ∀ c ∈ pre, c ≠ '{') (hg : g ≠ []) (hg' : ∀ c ∈ g, c ≠ '}') :
    findRef (pre ++ '{' :: '{' :: (g ++ '}' :: '}' :: rest)) = some (pre, g, rest) := by
  induction pre with
  | nil =>
    have htd := takeWhile_dropWhile_marker g ('}' :: rest) hg'
    simp only [List.nil_append, findRef, matchRefAt, htd.1, htd.2]
    simp [hg]
  | cons c pre ih =>
    have hc : c ≠ '{' := hpre c (by simp)
    have hm : matchRefAt (c :: (pre ++ '{' :: '{' :: (g ++ '}' :: '}' :: rest))) = none := by
      cases hp : pre ++ '{' :: '{' :: (g ++ '}' :: '}' :: rest) with
      | nil => rfl
      | cons c2 tl =>
        simp only [matchRefAt]
        rw [if_neg]
        rintro ⟨h1, -⟩
        exact hc h1
    rw [List.cons_append]
    unfold findRef
    rw [hm, ih (fun x hx => hpre x (by simp [hx]))]

theorem resolveCharsF_none {st : StateContainer} {fuel : Nat} {cs : List Char}
    (hf : findRef cs = none) : resolveCharsF st fuel cs = String.mk cs := by
  cases fuel with
  | zero => rfl
  | succ n => simp [resolveCharsF, hf]

theorem resolveCharsF_some {st : StateContainer} {fuel : Nat} {cs pre grp rest : List Char}
    (hf : findRef cs = some (pre, grp, rest)) :
    resolveCharsF st (fuel + 1) cs =
      String.mk pre ++ replaceRef st grp ++ resolveCharsF st fuel rest := by
  simp [resolveCharsF, hf]

theorem resolveCharsF_fuel (st : StateContainer) :
    ∀ (fuel fuel' : Nat) (cs : List Char), cs.length ≤ fuel → cs.length ≤ fuel' →
      resolveCharsF st fuel cs = resolveCharsF st fuel' cs := by
  intro fuel
  induction fuel with
  | zero =>
    intro fuel' cs h _
    have hnil : cs = [] := List.eq_nil_of_length_eq_zero (Nat.le_zero.mp h)
    subst hnil
    cases fuel' <;> rfl
  | succ n ih =>
    intro fuel' cs h h'
    cases fuel' with
    | zero =>
      have hnil : cs = [] := List.eq_nil_of_length_eq_zero (Nat.le_zero.mp h')
      subst hnil
      rfl
    | succ k =>
      cases hf : findRef cs with
      | none => rw [resolveCharsF_none hf, resolveCharsF_none hf]
      | some pgr =>
        obtain ⟨pre, grp, rest⟩ := pgr
        have hlt := findRef_length hf
        rw [resolveCharsF_some hf, resolveCharsF_some hf,
          ih k rest (by omega) (by omega)]

theorem get_step_mem {flow : Flow} {sid : Nat} {s : Step}
    (h : flow.get_step sid = some s) : s ∈ flow.steps := by
  unfold Flow.get_step at h
  have hm := List.mem_of_find?_eq_some h
  exact List.mem_reverse.mp hm

theorem stepsBeforeGo_subset (flow : Flow) :
    ∀ (fuel : Nat) (visited queue : List Nat) (u : Step),
      u ∈ stepsBeforeGo flow fuel visited queue → u ∈ flow.steps := by
  intro fuel
  induction fuel with
  | zero => intro _ _ u h; simp [stepsBeforeGo] at h
  | succ n ih =>
    intro visited queue u h
    cases queue with
    | nil => simp [stepsBeforeGo] at h
    | cons qid rest =>
      unfold stepsBeforeGo at h
      split at h
      · exact ih _ _ u h
      · split at h
        · rename_i st' hg
          rcases List.mem_cons.mp h with heq | h'
          · subst heq
            exact get_step_mem hg
          · exact ih _ _ u h'
        · exact ih _ _ u h

theorem steps_before_subset {flow : Flow} {step u : Step}
    (h : u ∈ flow.steps_before step) : u ∈ flow.steps :=
  stepsBeforeGo_subset flow _ _ _ u h

theorem mem_addKey {keys : List String} {k x : String} :
    x ∈ addKey keys k ↔ x ∈ keys ∨ x = k := by
  unfold addKey
  split
  · rename_i hk
    constructor
    · exact Or.inl
    · rintro (hx | rfl)
      · exact hx
      · exact hk
  · simp [List.mem_append]

theorem mem_foldl_addKey (outs : List String) (keys : List String) (x : String) :
    x ∈ outs.foldl addKey keys ↔ x ∈ keys ∨ x ∈ outs := by
  induction outs generalizing keys with
  | nil => simp
  | cons o os ih =>
    simp only [List.foldl_cons, ih, mem_addKey, List.mem_cons]
    tauto

theorem mem_availStep (keys : List String) (u : Step) (x : String) :
    x ∈ availStep keys u ↔
      x ∈ keys ∨ x ∈ u.outputKeys ∨
        (configField u.config "key" = some (.str x) ∧ x ≠ "") := by
  unfold availStep
  cases hv : configField u.config "key" with
  | none => simp [mem_foldl_addKey, hv]
  | some v =>
    cases v with
    | str s =>
      by_cases hs : s = ""
      · subst hs
        have : cvalTruthy (CVal.str "") = false := rfl
        simp [this, mem_foldl_addKey, hv]
        tauto
      · have : cvalTruthy (CVal.str s) = true := by simp [cvalTruthy, hs]
        simp only [this, if_true, mem_addKey, mem_foldl_addKey, hv]
        constructor
        · rintro ((hk | ho) | rfl)
          · exact Or.inl hk
          · exact Or.inr (Or.inl ho)
          · exact Or.inr (Or.inr ⟨(by simp), hs⟩)
        · rintro (hk | ho | ⟨heq, -⟩)
          · exact Or.inl (Or.inl hk)
          · exact Or.inl (Or.inr ho)
          · simp only [Option.some.injEq, CVal.str.injEq] at heq
            exact Or.inr heq.symm
    | pydict m => cases hm : cvalTruthy (CVal.pydict m) <;> simp [hm, mem_foldl_addKey, hv]
    | pylist xs => cases hm : cvalTruthy (CVal.pylist xs) <;> simp [hm, mem_foldl_addKey, hv]
    | model f => cases hm : cvalTruthy (CVal.model f) <;> simp [hm, mem_foldl_addKey, hv]
    | other w => cases hm : cvalTruthy (CVal.other w) <;> simp [hm, mem_foldl_addKey, hv]

theorem mem_foldl_availStep (us : List Step) (keys : List String) (x : String) :
    x ∈ us.foldl availStep keys ↔
      x ∈ keys ∨ ∃ u ∈ us, x ∈ u.outputKeys ∨
        (configField u.config "key" = some (.str x) ∧ x ≠ "") := by
  induction us generalizing keys with
  | nil => simp
  | cons u us ih =>
    simp only [List.foldl_cons, ih, mem_availStep, List.mem_cons]
    constructor
    · rintro ((hk | hrest) | ⟨w, hw, hc⟩)
      · exact Or.inl hk
      · exact Or.inr ⟨u, Or.inl rfl, hrest⟩
      · exact Or.inr ⟨w, Or.inr hw, hc⟩
    · rintro (hk | ⟨w, (rfl | hw), hc⟩)
      · exact Or.inl (Or.inl hk)
      · exact Or.inl (Or.inr hc)
      · exact Or.inr ⟨w, hw, hc⟩

theorem mem_stepAvailable (flow : Flow) (step : Step) (x : String)
    (Hkey : ∀ s ∈ flow.steps,
      (∃ k, configField s.config "key" = some (.str k)) → s.type = .set_state) :
    x ∈ stepAvailableSet flow step ↔ specAvailable flow step x := by
  unfold stepAvailableSet
  have hbase : x ∈ get_available_keys_before flow step ↔
      ∃ u ∈ flow.steps_before step, x ∈ u.outputKeys ∨
        (u.type = .set_state ∧ configField u.config "key" = some (.str x) ∧ x ≠ "") := by
    unfold get_available_keys_before
    rw [mem_foldl_availStep]
    simp only [List.not_mem_nil, false_or]
    constructor
    · rintro ⟨u, hu, ho | ⟨hc, hne⟩⟩
      · exact ⟨u, hu, Or.inl ho⟩
      · exact ⟨u, hu, Or.inr ⟨Hkey u (steps_before_subset hu) ⟨x, hc⟩, hc, hne⟩⟩
    · rintro ⟨u, hu, ho | ⟨-, hc, hne⟩⟩
      · exact ⟨u, hu, Or.inl ho⟩
      · exact ⟨u, hu, Or.inr ⟨hc, hne⟩⟩
  unfold specAvailable
  cases ht : step.is_trigger with
  | false =>
    simp only [ht, Bool.false_eq_true, if_false, false_and, or_false]
    exact hbase
  | true =>
    simp only [ht, if_true, true_and]
    rw [mem_foldl_addKey, hbase]

theorem getNestedGo_eq_specTraverse (d : Value) (segs : List String) (cur : Value) :
    getNestedGo d cur segs = specTraverse d segs cur := by
  induction segs generalizing cur with
  | nil => rfl
  | cons seg rest ih =>
    cases cur with
    | vnull => rfl
    | vdict m =>
      simp only [getNestedGo, specTraverse]
      cases h : lookupA m seg with
      | none => rfl
      | some v => cases v <;> simp [ih]
    | vlist xs =>
      simp only [getNestedGo, specTraverse]
      cases h : pyIntOfString seg with
      | none => rfl
      | some i => split <;> simp [ih]
    | vbool b => rfl
    | vint n => rfl
    | vfloat q => rfl
    | vstr s => rfl

/-! ## Claim theorems -/

/-- C10: `StateSlot.cast` maps `None` to `None` for every declared slot
type (never coercing to `False` or raising), so `StateContainer.set`
of `None` stores `None` under any key, declared or not. -/
theorem cast_none_set_none :
    (∀ (name : String) (t : StateType) (descr : Option String),
        StateSlot.cast ⟨name, t, descr⟩ .vnull = .ok .vnull) ∧
    (Except.ok Value.vnull ≠ (.ok (.vbool false) : Except String Value)) ∧
    (∀ (c : StateContainer) (n : String),
        c.set n .vnull = .ok { c with values := updateA c.values n .vnull } ∧
        lookupA (updateA c.values n .vnull) n = some .vnull) := by
  refine ⟨fun name t descr => rfl, by simp, fun c n => ⟨?_, lookupA_updateA _ _ _⟩⟩
  unfold StateContainer.set
  cases h : lookupA c.slots n with
  | none => rfl
  | some slot => rfl

/-- C7 counterexample: casting `None` through a BOOLEAN slot yields
`None`, not the truthiness of `None` as a bool — the claim fails at
`v = None`. -/
theorem boolean_cast_none_not_truthiness :
    StateSlot.cast ⟨"flag", .boolean, none⟩ .vnull ≠
      .ok (.vbool (pyTruthy .vnull)) := by
  intro h
  simp [StateSlot.cast, pyTruthy] at h

/-- C7 (amended): for every value other than `None`, a BOOLEAN slot
casts a string to membership of its lowercase form in
\x7b"true","1","yes"\x7d and any other value to its truthiness, always
producing a bool. -/
theorem boolean_cast_characterization (name : String) (descr : Option String)
    (v : Value) (h : v ≠ .vnull) :
    StateSlot.cast ⟨name, .boolean, descr⟩ v = .ok (.vbool (booleanCastSpec v)) := by
  cases v
  case vnull => exact absurd rfl h
  all_goals rfl

/-- C7 witness: the BOOLEAN cast characterization applied at the
concrete string "Yes". -/
theorem boolean_cast_characterization_witness :
    Value.vstr "Yes" ≠ .vnull ∧
    StateSlot.cast ⟨"flag", .boolean, none⟩ (.vstr "Yes") = .ok (.vbool true) := by
  refine ⟨by simp, ?_⟩
  rw [boolean_cast_characterization "flag" none (.vstr "Yes") (by simp)]
  rfl

/-- C6: `get_nested` splits the path on ".", starts at the values map,
and traverses segment by segment exactly as the specification words it
(dict read by key with missing/None yielding the default, list indexed
by the integer parse with non-integer or out-of-range yielding the
default, any other intermediate value yielding the default, and the
finally reached value returned otherwise). -/
theorem get_nested_spec (c : StateContainer) (path : String) (d : Value) :
    c.get_nested path d = specTraverse d (splitSep '.' path) (.vdict c.values) :=
  getNestedGo_eq_specTraverse d (splitSep '.' path) (.vdict c.values)

/-- C1 counterexample: a step declaring an explicit `error` port whose
body throws still yields fired_ports `["default"]` — not `["error"]` as
the claim states — because `StepRunResult.failure` never consults the
step's ports. -/
theorem execution_error_fires_default_not_error :
    "error" ∈ stepThrowing.ports ∧
    (execute_step stepThrowing {} []).2.fired_ports = ["default"] ∧
    (["default"] : List String) ≠ ["error"] := by
  refine ⟨by simp [stepThrowing], rfl, by simp⟩

/-- C1 (amended): a result built by `StepRunResult.failure` without an
explicit `fired_ports` argument — in particular the `EXECUTION_ERROR`
result `execute_step` builds when the step body throws — always has
fired_ports `["default"]`, regardless of the step's ports. -/
theorem failure_without_ports_fires_default (step : Step) (state : StateContainer)
    (cfg : Config) (e : String) (h : (step.run state cfg).2 = .error e) :
    (execute_step step state cfg).2 =
      StepRunResult.failure step.id ("Step execution failed: " ++ e)
        (some "EXECUTION_ERROR") [("exception_type", .vstr e)] ∧
    (execute_step step state cfg).2.fired_ports = ["default"] ∧
    (∀ (id : Nat) (msg : String) (code : Option String)
        (det : List (String × Value)),
      (StepRunResult.failure id msg code det none).fired_ports = ["default"]) := by
  rcases hr : step.run state cfg with ⟨st', res⟩
  rw [hr] at h
  simp only at h
  subst h
  refine ⟨?_, ?_, fun id msg code det => rfl⟩
  · unfold execute_step
    rw [hr]
  · unfold execute_step
    rw [hr]
    rfl

/-- C1 witness: the amended statement applied to the concrete throwing
step. -/
theorem failure_without_ports_fires_default_witness :
    (stepThrowing.run {} []).2 = .error "RuntimeError" ∧
    (execute_step stepThrowing {} []).2.fired_ports = ["default"] :=
  ⟨rfl, (failure_without_ports_fires_default stepThrowing {} [] "RuntimeError" rfl).2.1⟩

/-- C2 counterexample: a tracker holding successful arrivals from
sources 1 and 2, facing a single incoming edge from source 1: every
distinct incoming source has arrived and every recorded result
succeeded, yet `is_ready` under ALL_SUCCESS returns false (it demands
set equality, not inclusion). -/
theorem all_success_requires_exact_sources :
    trackerTwoArrivals.is_ready .all_success [edgeFromOne] = false ∧
    ([edgeFromOne].map (fun e => e.source_step_id)).all
      (fun s => decide (s ∈ trackerTwoArrivals.arrivals.map Prod.fst)) = true ∧
    trackerTwoArrivals.arrivals.all
      (fun a => decide (a.2.status = .success)) = true :=
  ⟨rfl, rfl, rfl⟩

/-- C2 (amended): under ALL_SUCCESS, `is_ready` is true exactly when
the recorded-arrival source set equals the distinct incoming source set
and every recorded result has status SUCCESS; and the runner's
selection phase launches a pending step with incoming edges and
join_mode ALL_SUCCESS only when its tracker's `is_ready` holds. -/
theorem all_success_ready_iff :
    (∀ (t : JoinTracker) (edges : List Edge), edges ≠ [] →
      (t.is_ready .all_success edges = true ↔
        ((∀ s ∈ edges.map (fun e => e.source_step_id), s ∈ t.arrivals.map Prod.fst) ∧
         (∀ s ∈ t.arrivals.map Prod.fst, s ∈ edges.map (fun e => e.source_step_id)) ∧
         (∀ a ∈ t.arrivals, a.2.status = .success)))) ∧
    (∀ (flow : Flow) (pending : List Nat) (trackers : List (Nat × JoinTracker))
        (step_id : Nat) (step : Step),
      step_id ∈ (selectLaunchable flow pending trackers).1 →
      flow.get_step step_id = some step →
      flow.get_edges_to step_id ≠ [] →
      step.join_mode = .all_success →
      ((lookupA trackers step_id).getD {}).is_ready .all_success
        (flow.get_edges_to step_id) = true) := by
  constructor
  · intro t edges hne
    rw [is_ready_all_success]
    simp only [Bool.and_eq_true, eqAsSets, List.all_eq_true, decide_eq_true_eq]
    tauto
  · intro flow pending trackers
    induction pending with
    | nil =>
      intro sid st hmem
      simp [selectLaunchable] at hmem
    | cons p rest ih =>
      intro sid st hmem hget hedges hmode
      simp only [selectLaunchable] at hmem
      split at hmem
      · exact ih sid st hmem hget hedges hmode
      · rename_i st' hg
        split at hmem
        · rename_i hcond
          split at hmem
          · rename_i hrdy
            rcases List.mem_cons.mp hmem with heq | hmem'
            · subst heq
              rw [hget] at hg
              cases hg
              rw [← hmode]
              exact hrdy
            · exact ih sid st hmem' hget hedges hmode
          · exact ih sid st hmem hget hedges hmode
        · rename_i hcond
          rcases List.mem_cons.mp hmem with heq | hmem'
          · subst heq
            rw [hget] at hg
            cases hg
            exfalso
            apply hcond
            constructor
            · simp only [Bool.not_eq_true, List.isEmpty_eq_false]
              exact hedges
            · rw [hmode]
              simp
          · exact ih sid st hmem' hget hedges hmode

/-- C2 witness: the readiness characterization applied to a concrete
tracker holding a successful arrival from the single incoming source. -/
theorem all_success_ready_iff_witness :
    ([edgeFromOne] : List Edge) ≠ [] ∧
    JoinTracker.is_ready ⟨[(1, StepRunResult.success 1)]⟩ .all_success
      [edgeFromOne] = true := by
  refine ⟨by simp, ?_⟩
  refine (all_success_ready_iff.1 ⟨[(1, StepRunResult.success 1)]⟩ [edgeFromOne]
    (by simp)).mpr ⟨?_, ?_, ?_⟩
  · simp [edgeFromOne]
  · simp [edgeFromOne]
  · simp [StepRunResult.success]

/-- C4: when a launched step's config resolution throws, the runner
records an ERROR result with code CONFIG_RESOLUTION_ERROR, emits a
`StepCompleted` with duration 0, and traverses no outgoing edges: the
launch leaves the join trackers, the running set and the shared state
untouched and only removes the step from pending. -/
theorem config_resolution_error_no_routing (flow : Flow) (run_id : Nat)
    (rs : RunnerState) (step_id : Nat) (step : Step) (e : String)
    (hstep : flow.get_step step_id = some step)
    (hres : resolve_config step.config rs.state = .error e) :
    launchStep flow run_id rs step_id =
      { rs with
          pending := rs.pending.erase step_id
          results := rs.results ++
            [StepRunResult.failure step_id ("Config resolution failed: " ++ e)
              (some "CONFIG_RESOLUTION_ERROR")]
          events := rs.events ++
            [.stepStarted run_id step_id step.type,
             .stepCompleted run_id step_id
               (StepRunResult.failure step_id ("Config resolution failed: " ++ e)
                 (some "CONFIG_RESOLUTION_ERROR")) 0 none] } ∧
    (StepRunResult.failure step_id ("Config resolution failed: " ++ e)
        (some "CONFIG_RESOLUTION_ERROR")).status = .error ∧
    (StepRunResult.failure step_id ("Config resolution failed: " ++ e)
        (some "CONFIG_RESOLUTION_ERROR")).error =
      some { message := "Config resolution failed: " ++ e
             code := some "CONFIG_RESOLUTION_ERROR" } := by
  refine ⟨?_, rfl, rfl⟩
  unfold launchStep
  rw [hstep]
  simp [hres]

theorem resolve_config_stepBadInt :
    resolve_config stepBadInt.config stateW = .error "ValueError" := rfl

/-- C4 witness: the config-error launch behavior at the concrete
int-interpolating step fed the non-numeric state value. -/
theorem config_resolution_error_no_routing_witness :
    resolve_config stepBadInt.config stateW = .error "ValueError" ∧
    (launchStep flowCfgError 0 { pending := [2], state := stateW } 2).join_trackers = [] ∧
    (launchStep flowCfgError 0 { pending := [2], state := stateW } 2).running = [] ∧
    (launchStep flowCfgError 0 { pending := [2], state := stateW } 2).pending = [] := by
  have h := config_resolution_error_no_routing flowCfgError 0
    { pending := [2], state := stateW } 2 stepBadInt "ValueError" rfl
    resolve_config_stepBadInt
  refine ⟨resolve_config_stepBadInt, ?_, ?_, ?_⟩ <;> simp [h.1]

/-- C9: running a flow from a trigger id absent from the step index
emits exactly `FlowStarted` then `FlowCompleted` with status
"succeeded" — no step events — and leaves the state container
unchanged. -/
theorem missing_trigger_two_events (flow : Flow) (tid : Nat)
    (ist : Option StateContainer) (fuel : Nat)
    (hmiss : flow.get_step tid = none) (hfuel : 1 ≤ fuel) :
    run_flow flow tid ist fuel =
      some ([.flowStarted 0 flow.name, .flowCompleted 0 "succeeded"], [], ist.getD {}) := by
  obtain ⟨k, rfl⟩ : ∃ k, fuel = k + 1 := ⟨fuel - 1, by omega⟩
  unfold run_flow runLoop
  simp [selectLaunchable, hmiss, finalizeRun]

/-- C9 witness: the missing-trigger behavior at a concrete flow and the
absent id 99. -/
theorem missing_trigger_two_events_witness :
    flowCfgError.get_step 99 = none ∧
    run_flow flowCfgError 99 none 1 =
      some ([.flowStarted 0 none, .flowCompleted 0 "succeeded"], [],
        ({} : StateContainer)) := by
  refine ⟨rfl, ?_⟩
  exact missing_trigger_two_events flowCfgError 99 none 1 rfl (le_refl 1)

theorem status_ne_success {s : StepRunStatus} (h : s ≠ .success) : s = .error := by
  cases s
  · exact absurd rfl h
  · rfl

/-- C3: whenever `run_flow` reaches quiescence, the event log ends with
a `FlowCompleted` whose status is "succeeded" exactly when every
recorded result has status SUCCESS, and is "failed" exactly when at
least one recorded result has status ERROR; the completion event is
produced by the driver itself (no exception escapes — the only
partiality of the model is its fuel). -/
theorem final_status_iff (flow : Flow) (tid : Nat) (ist : Option StateContainer)
    (fuel : Nat) (events : List Event) (results : List StepRunResult)
    (fin : StateContainer)
    (h : run_flow flow tid ist fuel = some (events, results, fin)) :
    events.getLast? = some (.flowCompleted 0
      (if results.all (fun r => r.status = .success) then "succeeded" else "failed")) ∧
    ((∃ r ∈ results, r.status = .error) ↔
      events.getLast? = some (.flowCompleted 0 "failed")) := by
  simp only [run_flow] at h
  cases hrl : runLoop flow 0 fuel
      { pending := [tid], running := [], join_trackers := [], results := [],
        state := ist.getD {}, events := [.flowStarted 0 flow.name], clock := 0,
        start_times := [] } with
  | none => rw [hrl] at h; simp [finalizeRun] at h
  | some rs =>
    rw [hrl] at h
    simp only [finalizeRun, Option.some.injEq, Prod.mk.injEq] at h
    obtain ⟨hev, hres, -⟩ := h
    subst hev hres
    have hlast : (rs.events ++
        [Event.flowCompleted 0
          (if rs.results.all (fun r => r.status = .success) then "succeeded"
            else "failed")]).getLast? =
        some (.flowCompleted 0
          (if rs.results.all (fun r => r.status = .success) then "succeeded"
            else "failed")) := by
      rw [List.getLast?_append]
      rfl
    refine ⟨hlast, ?_⟩
    rw [hlast]
    by_cases hb : rs.results.all (fun r => decide (r.status = .success)) = true
    · rw [if_pos hb]
      simp only [List.all_eq_true, decide_eq_true_eq] at hb
      constructor
      · rintro ⟨r, hr, herr⟩
        have := hb r hr
        rw [herr] at this
        exact absurd this (by simp)
      · intro hcontra
        simp only [Option.some.injEq, Event.flowCompleted.injEq] at hcontra
        exact absurd hcontra.2 (by simp)
    · rw [if_neg hb]
      simp only [List.all_eq_true, decide_eq_true_eq] at hb
      push_neg at hb
      obtain ⟨r, hr, hrs⟩ := hb
      exact ⟨fun _ => rfl, fun _ => ⟨r, hr, status_ne_success hrs⟩⟩

/-- C3 witness: the status characterization applied at a run that
records one success and one error: the final event is
`FlowCompleted "failed"`. -/
theorem final_status_iff_witness :
    run_flow flowCfgError 1 (some stateW) 10 =
      some (cfgErrorRunEvents, cfgErrorRunResults, stateW) ∧
    ((∃ r ∈ cfgErrorRunResults, r.status = .error) ↔
      cfgErrorRunEvents.getLast? = some (.flowCompleted 0 "failed")) := by
  have hrun : run_flow flowCfgError 1 (some stateW) 10 =
      some (cfgErrorRunEvents, cfgErrorRunResults, stateW) := rfl
  exact ⟨hrun,
    (final_status_iff flowCfgError 1 (some stateW) 10 cfgErrorRunEvents
      cfgErrorRunResults stateW hrun).2⟩

/-- C5: `resolve_template` leaves a string containing no marker
unchanged, and rewrites the leftmost `\x7b\x7bpath\x7d\x7d` occurrence
to the claim's substitution rule (trimmed path, `get_nested`, empty for
missing/None, JSON for containers, string form otherwise) while
continuing the single pass only on the text after the match — neither
the preceding text nor the substituted text is re-scanned. -/
theorem resolve_template_single_pass :
    (∀ (st : StateContainer) (t : String), hasRefMarker t = false →
        resolve_template t st = t) ∧
    (∀ (st : StateContainer) (pre g rest : List Char),
        (∀ c ∈ pre, c ≠ '{') → g ≠ [] → (∀ c ∈ g, c ≠ '}') →
        resolve_template (String.mk (pre ++ '{' :: '{' :: (g ++ '}' :: '}' :: rest))) st =
          String.mk pre ++ refReplacementSpec st (String.mk g) ++
            resolve_template (String.mk rest) st) := by
  constructor
  · intro st t h
    have hnone : findRef t.toList = none := findRef_eq_none_of_no_marker h
    unfold resolve_template
    rw [resolveCharsF_none hnone]
    obtain ⟨d⟩ := t
    rfl
  · intro st pre g rest hpre hg hg'
    have hfind := findRef_decomp pre g rest hpre hg hg'
    unfold resolve_template
    rw [toList_mk, toList_mk]
    have hlen : (pre ++ '{' :: '{' :: (g ++ '}' :: '}' :: rest)).length =
        (pre.length + g.length + rest.length + 3) + 1 := by
      simp [List.length_append]
      omega
    rw [hlen, resolveCharsF_some hfind]
    have hrepl : replaceRef st g = refReplacementSpec st (String.mk g) := rfl
    rw [hrepl, resolveCharsF_fuel st (pre.length + g.length + rest.length + 3)
      rest.length rest (by omega) (le_refl _)]

/-- C5 witness: the decomposition applied at concrete strings: the text
before the match is kept, the trimmed path ` x ` is read from state,
and only the text after the match is scanned further. -/
theorem resolve_template_single_pass_witness :
    resolve_template (String.mk
        (['a', ' '] ++ '{' :: '{' :: ([' ', 'x', ' '] ++ '}' :: '}' :: ['!'])))
      stateInterp =
      String.mk ['a', ' '] ++ refReplacementSpec stateInterp (String.mk [' ', 'x', ' ']) ++
        resolve_template (String.mk ['!']) stateInterp ∧
    resolve_template "a \x7b\x7b x \x7d\x7d!" stateInterp = "a a!" := by
  refine ⟨resolve_template_single_pass.2 stateInterp ['a', ' '] [' ', 'x', ' '] ['!']
    (by decide) (by decide) (by decide), rfl⟩

/-- C8 counterexample: a set-state step whose configured key is the
empty string.  By the claim's wording the empty key is available
downstream, so a reference with empty root should produce no finding —
yet `validate_flow` produces one (the code adds `config.key` only when
truthy). -/
theorem empty_key_not_available :
    specAvailableClaim flowEmptyKey stepEmptyRef "" ∧
    stepFindings flowEmptyKey stepEmptyRef =
      [{ step_id := 11, field := "note", reference := "",
         message := "'' not found. Available: []", level := "error" }] ∧
    rootOf "" = "" := by
  refine ⟨?_, rfl, rfl⟩
  left
  refine ⟨stepEmptyKey, ?_, Or.inr ⟨rfl, rfl⟩⟩
  have hsb : flowEmptyKey.steps_before stepEmptyRef = [stepEmptyKey] := rfl
  rw [hsb]
  simp

/-- C8 (amended): `validate_flow` concatenates, in flow order, each
step's findings; every finding is error-level; and a finding for a
given `(field, reference)` pair exists exactly when the pair is
extracted from the step's config and the reference's root segment is
not spec-available — where availability is the union over every BFS
upstream step of its declared outputs plus, for a set-state step, its
configured key *when non-empty*, plus the step's own outputs when it is
a trigger.  The hypothesis pins the repository's closed world: only
set-state configs carry a string `key` field. -/
theorem validate_flow_spec (flow : Flow) (step : Step)
    (Hkey : ∀ s ∈ flow.steps,
      (∃ k, configField s.config "key" = some (.str k)) → s.type = .set_state) :
    validate_flow flow = flow.steps.flatMap (stepFindings flow) ∧
    (∀ e ∈ stepFindings flow step, e.level = "error") ∧
    (∀ fname ref : String,
      ((∃ m, ValidationError.mk step.id fname ref m "error" ∈ stepFindings flow step) ↔
        ((fname, ref) ∈ extract_refs step.config ∧
          ¬ specAvailable flow step (rootOf ref)))) := by
  have hav := fun x => mem_stepAvailable flow step x Hkey
  refine ⟨rfl, ?_, ?_⟩
  · intro e he
    unfold stepFindings at he
    rw [List.mem_filterMap] at he
    obtain ⟨fr, -, hfr⟩ := he
    by_cases hc : rootOf fr.2 ∈ stepAvailableSet flow step
    · rw [if_pos hc] at hfr
      cases hfr
    · rw [if_neg hc] at hfr
      simp only [Option.some.injEq] at hfr
      subst hfr
      rfl
  · intro fname ref
    constructor
    · rintro ⟨m, hm⟩
      unfold stepFindings at hm
      rw [List.mem_filterMap] at hm
      obtain ⟨fr, hfr, heq⟩ := hm
      by_cases hc : rootOf fr.2 ∈ stepAvailableSet flow step
      · rw [if_pos hc] at heq
        cases heq
      · rw [if_neg hc] at heq
        simp only [Option.some.injEq, ValidationError.mk.injEq] at heq
        obtain ⟨-, hf1, hf2, -, -⟩ := heq
        subst hf1 hf2
        exact ⟨hfr, fun hspec => hc ((hav (rootOf fr.2)).mpr hspec)⟩
    · rintro ⟨hpair, hnspec⟩
      have hroot : rootOf ref ∉ stepAvailableSet flow step :=
        fun hmem => hnspec ((hav (rootOf ref)).mp hmem)
      refine ⟨"'" ++ ref ++ "' not found. Available: " ++
        sortedKeysRepr (stepAvailableSet flow step), ?_⟩
      unfold stepFindings
      rw [List.mem_filterMap]
      exact ⟨(fname, ref), hpair, by rw [if_neg hroot]⟩

/-- C8 witness: the amended characterization applied at a concrete flow
where a set-state references root `nope`, unavailable from its webhook
upstream: a finding exists. -/
theorem validate_flow_spec_witness :
    ∃ m, ValidationError.mk 2 "value" "nope.a" m "error" ∈
      stepFindings flowBadRef (mkSetState 2 "y" "\x7b\x7bnope.a\x7d\x7d") := by
  have hkey : ∀ s ∈ flowBadRef.steps,
      (∃ k, configField s.config "key" = some (.str k)) → s.type = .set_state := by
    intro s hs hk
    simp only [flowBadRef, List.mem_cons, List.not_mem_nil, or_false] at hs
    rcases hs with rfl | rfl
    · obtain ⟨k, hk⟩ := hk
      simp [configField, mkTriggerWebhook, List.find?] at hk
    · rfl
  have h := (validate_flow_spec flowBadRef (mkSetState 2 "y" "\x7b\x7bnope.a\x7d\x7d")
    hkey).2.2 "value" "nope.a"
  refine h.mpr ⟨?_, ?_⟩
  · have : extract_refs (mkSetState 2 "y" "\x7b\x7bnope.a\x7d\x7d").config =
        [("value", "nope.a")] := rfl
    rw [this]
    simp
  · have hsb : flowBadRef.steps_before (mkSetState 2 "y" "\x7b\x7bnope.a\x7d\x7d") =
        [mkTriggerWebhook 1 "/t"] := rfl
    have hroot : rootOf "nope.a" = "nope" := rfl
    unfold specAvailable
    rw [hsb, hroot]
    rintro (⟨u, hu, hcase⟩ | ⟨htrig, -⟩)
    · simp only [List.mem_singleton] at hu
      subst hu
      rcases hcase with ho | ⟨hty, -, -⟩
      · simp [mkTriggerWebhook] at ho
      · simp [mkTriggerWebhook] at hty
    · simp [mkSetState] at htrig

end OpenRun
